import Mathlib

/-!
Verification of the Allocation & Consensus Coordinator
(`swarm-protocol`: `ConsensusEngine.ts` and `TaskDistributor.ts`).

Shallow embedding: the engines' pure decision logic is translated to
executable Lean functions; the mutable maps (`reputations`, `taskQueue`,
`agentBids`, `agentProfiles`, `activeAssignments`) become explicit state
values; JS numbers in the scoring formulas become `ℚ`; emitted events
become explicit lists of a `SwarmEvent` type.
-/

namespace Swarm

/-! ### Consensus engine: data model (`ConsensusEngine.ts`) -/

/-- Status of a consensus proposal. -/
inductive ProposalStatus where
  | pending
  | accepted
  | rejected
  | expired
deriving DecidableEq, Repr

/-- A recorded vote (`Vote` in `ConsensusEngine.ts`). -/
structure Vote where
  voter : String
  weight : ℚ
  timestamp : ℕ
  reason : Option String := none
deriving DecidableEq, Repr

/-- `ConsensusConfig` in `ConsensusEngine.ts`. -/
structure ConsensusConfig where
  votingThreshold : ℚ
  votingPeriod : ℕ
  minParticipants : ℕ
  reputationWeighting : Bool
deriving DecidableEq, Repr

/-- The default configuration built in the `ConsensusEngine` constructor. -/
def defaultConsensusConfig : ConsensusConfig :=
  { votingThreshold := 66/100
    votingPeriod := 5 * 60 * 1000
    minParticipants := 3
    reputationWeighting := true }

/-- `ConsensusProposal` in `ConsensusEngine.ts`.  The supporter/rejector
`Map`s become lists of votes in insertion order; map semantics guarantee
that voter ids are unique per list. -/
structure ConsensusProposal where
  id : String
  taskId : String
  solution : String
  proposer : String
  supporters : List Vote
  rejectors : List Vote
  confidence : ℚ
  timestamp : ℕ
  deadline : ℕ
  status : ProposalStatus
deriving DecidableEq, Repr

/-- `AgentReputation` in `ConsensusEngine.ts`. -/
structure AgentReputation where
  accountId : String
  score : ℚ
  tasksCompleted : ℕ
  consensusParticipation : ℕ
deriving DecidableEq, Repr

/-- The engine's `reputations` map. -/
def ReputationMap : Type := String → Option AgentReputation

/-- Total weight of the supporter votes. -/
def supportWeight (p : ConsensusProposal) : ℚ :=
  (p.supporters.map Vote.weight).sum

/-- Total weight of the rejector votes. -/
def rejectWeight (p : ConsensusProposal) : ℚ :=
  (p.rejectors.map Vote.weight).sum

/-- `supporters.size + rejectors.size`. -/
def totalVotes (p : ConsensusProposal) : ℕ :=
  p.supporters.length + p.rejectors.length

/-- Result record returned by `calculateConsensus`. -/
structure ConsensusResult where
  accepted : Bool
  supportPercentage : ℚ
  totalVotes : ℕ
deriving DecidableEq, Repr

/-- `calculateConsensus` (`ConsensusEngine.ts`, lines 209–246): weighted
tally with a minimum-participation gate. -/
def calculateConsensus (cfg : ConsensusConfig) (p : ConsensusProposal) :
    ConsensusResult :=
  let sW := supportWeight p
  let rW := rejectWeight p
  let totalWeight := sW + rW
  let tv := totalVotes p
  if tv < cfg.minParticipants then
    { accepted := false, supportPercentage := 0, totalVotes := tv }
  else
    let supportPercentage := if 0 < totalWeight then sW / totalWeight else 0
    { accepted := decide (cfg.votingThreshold ≤ supportPercentage)
      supportPercentage := supportPercentage
      totalVotes := tv }

/-- The hard-coded `totalPossibleVoters = 10` in `checkEarlyConsensus`. -/
def totalPossibleVoters : ℕ := 10

/-- Decision part of `checkEarlyConsensus` (`ConsensusEngine.ts`,
lines 251–284): `true` exactly when the engine finalizes the pending
proposal early. -/
def checkEarlyConsensus (cfg : ConsensusConfig) (p : ConsensusProposal) :
    Bool :=
  if p.status ≠ ProposalStatus.pending then false
  else
    let result := calculateConsensus cfg p
    let remainingVoters : ℤ := (totalPossibleVoters : ℤ) - result.totalVotes
    let maxPossibleRejectWeight : ℚ := (remainingVoters : ℚ) * 100
    let currentSupportWeight := supportWeight p
    let currentRejectWeight := rejectWeight p
    let worstCaseSupport := currentSupportWeight /
      (currentSupportWeight + currentRejectWeight + maxPossibleRejectWeight)
    decide (cfg.votingThreshold ≤ worstCaseSupport)

/-- `evaluateProposal` (`ConsensusEngine.ts`, lines 183–204), restricted to
its effect on the proposal's status: a non-pending proposal is left
untouched; a pending one becomes `accepted` or `rejected` per
`calculateConsensus`. -/
def evaluateProposal (cfg : ConsensusConfig) (p : ConsensusProposal) :
    ConsensusProposal :=
  if p.status ≠ ProposalStatus.pending then p
  else
    { p with status :=
        if (calculateConsensus cfg p).accepted then ProposalStatus.accepted
        else ProposalStatus.rejected }

/-- The tail of `voteOnProposal`: after a vote is recorded the engine runs
the early-termination check, finalizing via `evaluateProposal` when it
fires. -/
def afterVoteEarlyCheck (cfg : ConsensusConfig) (p : ConsensusProposal) :
    ConsensusProposal :=
  if checkEarlyConsensus cfg p then evaluateProposal cfg p else p

/-- `getAgentWeight` (`ConsensusEngine.ts`, lines 289–300). -/
def getAgentWeight (cfg : ConsensusConfig) (reps : ReputationMap)
    (accountId : String) : ℚ :=
  if ¬ cfg.reputationWeighting then 1
  else
    match reps accountId with
    | none => 50
    | some r => r.score

/-- Fresh reputation record created by `adjustReputation` for an unseen
account: starting score 100. -/
def freshReputation (accountId : String) : AgentReputation :=
  { accountId := accountId, score := 100, tasksCompleted := 0
    consensusParticipation := 0 }

/-- The clamp `Math.max(0, Math.min(200, x))`. -/
def clampScore (x : ℚ) : ℚ := max 0 (min 200 x)

/-- The mutation `adjustReputation` applies to one record. -/
def bumpReputation (r : AgentReputation) (delta : ℚ) : AgentReputation :=
  { r with score := clampScore (r.score + delta)
           consensusParticipation := r.consensusParticipation + 1 }

/-- `adjustReputation` (`ConsensusEngine.ts`, lines 329–350). -/
def adjustReputation (reps : ReputationMap) (accountId : String)
    (delta : ℚ) : ReputationMap :=
  fun x =>
    if x = accountId then
      some (bumpReputation ((reps accountId).getD (freshReputation accountId)) delta)
    else reps x

/-- Fold of `adjustReputation` over a list of voters. -/
def adjustAll (reps : ReputationMap) (voters : List String) (delta : ℚ) :
    ReputationMap :=
  voters.foldl (fun r v => adjustReputation r v delta) reps

/-- `updateReputations` (`ConsensusEngine.ts`, lines 305–324). -/
def updateReputations (reps : ReputationMap) (p : ConsensusProposal)
    (accepted : Bool) : ReputationMap :=
  let correctVoters := if accepted then p.supporters else p.rejectors
  let incorrectVoters := if accepted then p.rejectors else p.supporters
  let r1 := adjustAll reps (correctVoters.map Vote.voter) 5
  let r2 := adjustAll r1 (incorrectVoters.map Vote.voter) (-2)
  if accepted then adjustReputation r2 p.proposer 10 else r2

/-- `loadReputations` (`ConsensusEngine.ts`, lines 542–546): stores the
given records as-is, with no validation or clamping. -/
def loadReputations (reps : ReputationMap)
    (reputationData : List AgentReputation) : ReputationMap :=
  reputationData.foldl
    (fun r rep => fun x => if x = rep.accountId then some rep else r x) reps

/-- The score the ledger effectively attributes to an account: the stored
score, or the fresh-record starting score 100 when absent. -/
def repScore (reps : ReputationMap) (a : String) : ℚ :=
  ((reps a).getD (freshReputation a)).score

/-- The bound `0 ≤ score ≤ 200` on every stored record. -/
def repInvariant (reps : ReputationMap) : Prop :=
  ∀ a r, reps a = some r → 0 ≤ r.score ∧ r.score ≤ 200

/-- The empty reputation ledger. -/
def emptyReps : ReputationMap := fun _ => none

/-- The spec's quorum scenario: proposer `a1` and supporter `a2` with
weight 100 each, rejector `a3` with weight 50. -/
def quorumProposal : ConsensusProposal :=
  { id := "p1", taskId := "t1", solution := "s", proposer := "a1"
    supporters := [⟨"a1", 100, 0, none⟩, ⟨"a2", 100, 0, none⟩]
    rejectors := [⟨"a3", 50, 0, none⟩]
    confidence := 1/2, timestamp := 0, deadline := 10
    status := ProposalStatus.pending }

/-- A pending proposal with seven supporters of weight 100: the
early-termination lower bound is 700/1000 ≥ 0.66. -/
def earlyProposal : ConsensusProposal :=
  { id := "p2", taskId := "t2", solution := "s", proposer := "b1"
    supporters := [⟨"b1", 100, 0, none⟩, ⟨"b2", 100, 0, none⟩,
                   ⟨"b3", 100, 0, none⟩, ⟨"b4", 100, 0, none⟩,
                   ⟨"b5", 100, 0, none⟩, ⟨"b6", 100, 0, none⟩,
                   ⟨"b7", 100, 0, none⟩]
    rejectors := []
    confidence := 1/2, timestamp := 0, deadline := 10
    status := ProposalStatus.pending }

/-! ### Task distributor: data model (`TaskDistributor.ts`) -/

/-- `Task` in `TaskDistributor.ts`.  `minAgents` and `maxAgents` are
optional; the JS `x || default` defaulting is `effectiveOr` below. -/
structure Task where
  id : String
  description : String
  requiredCapabilities : List String
  bounty : ℚ
  deadline : ℚ
  requester : String
  minAgents : Option ℕ := none
  maxAgents : Option ℕ := none
  priority : Option String := none
deriving DecidableEq, Repr

/-- `AgentBid` in `TaskDistributor.ts`. -/
structure AgentBid where
  agentId : String
  taskId : String
  estimatedTime : ℚ
  requestedReward : ℚ
  confidence : ℚ
  capabilities : List String
  reputation : ℚ
deriving DecidableEq, Repr

/-- `TaskAssignment` in `TaskDistributor.ts`. -/
structure TaskAssignment where
  taskId : String
  assignedAgents : List String
  totalReward : ℚ
  deadline : ℚ
deriving DecidableEq, Repr

/-- `AgentProfile` in `TaskDistributor.ts`. -/
structure AgentProfile where
  accountId : String
  capabilities : List String
  reputation : ℚ
  activeTaskCount : ℤ
  completedTaskCount : ℕ
  successRate : ℚ
  averageCompletionTime : ℚ
  specializations : Option (List String) := none
deriving DecidableEq, Repr

/-- A bid together with the score attached by `scoreBids`
(`{ ...bid, score }` in the source). -/
structure ScoredBid where
  bid : AgentBid
  score : ℚ
deriving DecidableEq, Repr

/-- Events the distributor emits to observers. -/
inductive SwarmEvent where
  | taskAnnounced (taskId : String)
  | bidSubmitted (bid : AgentBid)
  | taskAssigned (assignment : TaskAssignment)
  | taskAssignmentFailed (taskId : String) (reason : String)
  | taskCancelled (taskId : String) (reason : String)
deriving DecidableEq, Repr

/-- The distributor's mutable maps (`taskQueue`, `agentBids`,
`agentProfiles`, `activeAssignments`). -/
structure DistributorState where
  taskQueue : String → Option Task
  agentBids : String → Option (List AgentBid)
  agentProfiles : String → Option AgentProfile
  activeAssignments : String → Option TaskAssignment

/-- The distributor with no tasks, bids, profiles or assignments. -/
def emptyDistributorState : DistributorState :=
  { taskQueue := fun _ => none
    agentBids := fun _ => none
    agentProfiles := fun _ => none
    activeAssignments := fun _ => none }

/-- The fixed `config` object of `TaskDistributor`. -/
structure DistributorConfig where
  bidWindowDuration : ℕ
  maxBidsPerTask : ℕ
  reputationWeight : ℚ
  confidenceWeight : ℚ
  priceWeight : ℚ
  capabilityMatchBonus : ℚ
deriving DecidableEq, Repr

/-- The literal values of the `config` field in `TaskDistributor.ts`. -/
def distributorConfig : DistributorConfig :=
  { bidWindowDuration := 2 * 60 * 1000
    maxBidsPerTask := 20
    reputationWeight := 4/10
    confidenceWeight := 3/10
    priceWeight := 3/10
    capabilityMatchBonus := 2/10 }

/-- JS `x || d` for an optional nonnegative count: `undefined` and `0` both
fall back to the default. -/
def effectiveOr (v : Option ℕ) (d : ℕ) : ℕ :=
  match v with
  | none => d
  | some n => if n = 0 then d else n

/-- `validateCapabilities` (`TaskDistributor.ts`, lines 278–284). -/
def validateCapabilities (agentCapabilities requiredCapabilities :
    List String) : Bool :=
  requiredCapabilities.all fun cap => agentCapabilities.contains cap

/-- `calculateCapabilityScore` (`TaskDistributor.ts`, lines 260–273). -/
def calculateCapabilityScore (agentCapabilities requiredCapabilities :
    List String) : ℚ :=
  let matchCount :=
    (agentCapabilities.filter fun cap =>
      requiredCapabilities.contains cap).length
  let extraCount := agentCapabilities.length - matchCount
  let matchScore := (matchCount : ℚ) / (requiredCapabilities.length : ℚ)
  let extraBonus := min ((extraCount : ℚ) * (5/100)) (2/10)
  min (matchScore + extraBonus) 1

/-- Scoring of one bid inside `scoreBids` (`TaskDistributor.ts`,
lines 181–215), accumulator style exactly as the source adds terms. -/
def scoreBid (profiles : String → Option AgentProfile) (task : Task)
    (now : ℚ) (bid : AgentBid) : ℚ :=
  let reputationScore := min (bid.reputation / 100) 1
  let s1 := reputationScore * distributorConfig.reputationWeight
  let s2 := s1 + bid.confidence * distributorConfig.confidenceWeight
  let priceRatio := 1 - bid.requestedReward / task.bounty
  let s3 := s2 + (max 0 priceRatio) * distributorConfig.priceWeight
  let capabilityScore :=
    calculateCapabilityScore bid.capabilities task.requiredCapabilities
  let s4 := s3 + capabilityScore * distributorConfig.capabilityMatchBonus
  let timeScore := max 0 (1 - bid.estimatedTime / (task.deadline - now))
  let s5 := s4 + timeScore * (1/10)
  match profiles bid.agentId with
  | some agentProfile =>
    if 3 < agentProfile.activeTaskCount then s5 * (8/10) else s5
  | none => s5

/-- The comparator `(a, b) => b.score - a.score` as a Boolean order:
`a` may precede `b` when `b.score ≤ a.score`. -/
def byScoreDesc (a b : ScoredBid) : Bool := decide (b.score ≤ a.score)

/-- `scoreBids`: attach scores, then the stable descending sort
(`.sort((a, b) => b.score - a.score)`; JS `Array.prototype.sort` is
stable). -/
def scoreBids (profiles : String → Option AgentProfile) (task : Task)
    (now : ℚ) (bids : List AgentBid) : List ScoredBid :=
  (bids.map fun b => ScoredBid.mk b (scoreBid profiles task now b)).mergeSort
    byScoreDesc

/-- The greedy loop of `selectOptimalAgents` (`TaskDistributor.ts`,
lines 229–247): `selected` and `usedCapabilities` are the loop state. -/
def selectGreedyGo (minAgents maxAgents : ℕ) :
    List ScoredBid → List ScoredBid → List String → List ScoredBid
  | [], selected, _ => selected
  | b :: rest, selected, used =>
    if maxAgents ≤ selected.length then selected
    else if selected.length < minAgents ∨
        0 < (b.bid.capabilities.filter fun cap =>
          !(used.contains cap)).length ∨
        (8/10 : ℚ) < b.score then
      selectGreedyGo minAgents maxAgents rest (selected ++ [b])
        (used ++ b.bid.capabilities)
    else
      selectGreedyGo minAgents maxAgents rest selected used

/-- `selectOptimalAgents` (`TaskDistributor.ts`, lines 220–255): the greedy
walk plus the minimum-override (`slice(0, minAgents)`). -/
def selectOptimalAgents (scoredBids : List ScoredBid)
    (minAgents maxAgents : ℕ) : List ScoredBid :=
  let selected := selectGreedyGo minAgents maxAgents scoredBids [] []
  if selected.length < minAgents ∧ minAgents ≤ scoredBids.length then
    scoredBids.take minAgents
  else selected

/-- Spec-side walk, written from the claim's words: a bid is selected iff
fewer than the minimum are selected so far, or it contributes a capability
tag not yet covered, or its score exceeds 0.8; stop at the maximum. -/
def specSelectWalk (minAgents maxAgents : ℕ) :
    List ScoredBid → List ScoredBid → List String → List ScoredBid
  | [], selected, _ => selected
  | b :: rest, selected, covered =>
    if maxAgents ≤ selected.length then selected
    else if selected.length < minAgents ∨
        (∃ cap ∈ b.bid.capabilities, cap ∉ covered) ∨
        (8/10 : ℚ) < b.score then
      specSelectWalk minAgents maxAgents rest (selected ++ [b])
        (covered ++ b.bid.capabilities)
    else
      specSelectWalk minAgents maxAgents rest selected covered

/-- Spec-side selection: the walk, overridden by the top-`minAgents` bids
when fewer than the minimum were selected yet enough bids exist. -/
def specSelect (sorted : List ScoredBid) (minAgents maxAgents : ℕ) :
    List ScoredBid :=
  let walked := specSelectWalk minAgents maxAgents sorted [] []
  if walked.length < minAgents ∧ minAgents ≤ sorted.length then
    sorted.take minAgents
  else walked

/-- Spec-side capability score, written from the claim's formula:
`min(matchedRequired/totalRequired + min(0.05·extraCapabilities, 0.2), 1)`. -/
def specCapabilityScore (agentCapabilities requiredCapabilities :
    List String) : ℚ :=
  let matchedRequired :=
    (agentCapabilities.filter fun cap =>
      requiredCapabilities.contains cap).length
  let totalRequired := requiredCapabilities.length
  let extraCapabilities := agentCapabilities.length - matchedRequired
  min ((matchedRequired : ℚ) / (totalRequired : ℚ) +
    min ((5/100) * (extraCapabilities : ℚ)) (2/10)) 1

/-- Spec-side bid score, written from the claim's formula:
`0.4·min(rep/100,1) + 0.3·confidence + 0.3·max(0, 1 − reward/bounty) +
0.2·capabilityScore + 0.1·timeScore`, all multiplied by 0.8 exactly when
the bidder's active-task count exceeds 3. -/
def specBidScore (task : Task) (now : ℚ) (bid : AgentBid)
    (activeTaskCount : ℤ) : ℚ :=
  let capabilityScore :=
    specCapabilityScore bid.capabilities task.requiredCapabilities
  let timeScore := max 0 (1 - bid.estimatedTime / (task.deadline - now))
  let total :=
    (4/10) * min (bid.reputation / 100) 1 + (3/10) * bid.confidence +
    (3/10) * max 0 (1 - bid.requestedReward / task.bounty) +
    (2/10) * capabilityScore + (1/10) * timeScore
  if 3 < activeTaskCount then total * (8/10) else total

/-- Errors `submitBid` throws. -/
inductive BidError where
  | unknownTask
  | duplicateBid
  | capabilityMismatch
deriving DecidableEq, Repr

/-- Outcome of `submitBid`: the thrown error (if any), the distributor
state afterwards, and the events emitted. -/
structure SubmitResult where
  error : Option BidError
  state : DistributorState
  events : List SwarmEvent

/-- `submitBid` (`TaskDistributor.ts`, lines 91–118). -/
def submitBid (st : DistributorState) (bid : AgentBid) : SubmitResult :=
  match st.taskQueue bid.taskId with
  | none => { error := some BidError.unknownTask, state := st, events := [] }
  | some task =>
    let bids := (st.agentBids bid.taskId).getD []
    if bids.any fun b => b.agentId == bid.agentId then
      { error := some BidError.duplicateBid, state := st, events := [] }
    else if ¬ validateCapabilities bid.capabilities
        task.requiredCapabilities then
      { error := some BidError.capabilityMismatch, state := st, events := [] }
    else
      { error := none
        state := { st with agentBids := fun x =>
          if x = bid.taskId then some (bids ++ [bid])
          else st.agentBids x }
        events := [SwarmEvent.bidSubmitted bid] }

/-- `updateAgentTaskCount` (`TaskDistributor.ts`, lines 321–326): adjusts
the count only when a profile exists. -/
def updateAgentTaskCount (profiles : String → Option AgentProfile)
    (agentId : String) (delta : ℤ) : String → Option AgentProfile :=
  fun x =>
    if x = agentId then
      match profiles agentId with
      | some p => some { p with activeTaskCount := p.activeTaskCount + delta }
      | none => none
    else profiles x

/-- `announceTask` (`TaskDistributor.ts`, lines 76–86), without the timer:
stores the task, opens an empty bid set, notifies observers. -/
def announceTask (st : DistributorState) (task : Task) :
    DistributorState × List SwarmEvent :=
  ({ st with
      taskQueue := fun x => if x = task.id then some task else st.taskQueue x
      agentBids := fun x => if x = task.id then some [] else st.agentBids x },
   [SwarmEvent.taskAnnounced task.id])

/-- `cancelTask` (`TaskDistributor.ts`, lines 399–416). -/
def cancelTask (st : DistributorState) (taskId reason : String) :
    DistributorState × List SwarmEvent :=
  let st1 := { st with
    taskQueue := fun x => if x = taskId then none else st.taskQueue x
    agentBids := fun x => if x = taskId then none else st.agentBids x }
  let st2 :=
    match st1.activeAssignments taskId with
    | some assignment =>
      { st1 with
          agentProfiles := assignment.assignedAgents.foldl
            (fun ps a => updateAgentTaskCount ps a (-1)) st1.agentProfiles
          activeAssignments := fun x =>
            if x = taskId then none else st1.activeAssignments x }
    | none => st1
  (st2, [SwarmEvent.taskCancelled taskId reason])

/-- `evaluateBidsAndAssign` (`TaskDistributor.ts`, lines 123–176), without
the on-chain call: scores bids, selects agents, creates the assignment,
bumps assignee task counts and drops the task; emits
`taskAssignmentFailed` when the task or bids are missing or empty, or when
selection is empty. -/
def evaluateBidsAndAssign (st : DistributorState) (now : ℚ)
    (taskId : String) : DistributorState × List SwarmEvent :=
  match st.taskQueue taskId, st.agentBids taskId with
  | some task, some bids =>
    if bids.isEmpty then
      (st, [SwarmEvent.taskAssignmentFailed taskId "No valid bids received"])
    else
      let scoredBids := scoreBids st.agentProfiles task now bids
      let selectedAgents := selectOptimalAgents scoredBids
        (effectiveOr task.minAgents 1) (effectiveOr task.maxAgents 5)
      if selectedAgents.isEmpty then
        (st, [SwarmEvent.taskAssignmentFailed taskId "No suitable agents found"])
      else
        let assignment : TaskAssignment :=
          { taskId := taskId
            assignedAgents := selectedAgents.map fun sb => sb.bid.agentId
            totalReward := task.bounty
            deadline := task.deadline }
        ({ st with
            activeAssignments := fun x =>
              if x = taskId then some assignment
              else st.activeAssignments x
            agentProfiles := assignment.assignedAgents.foldl
              (fun ps a => updateAgentTaskCount ps a 1) st.agentProfiles
            taskQueue := fun x => if x = taskId then none else st.taskQueue x
            agentBids := fun x => if x = taskId then none else st.agentBids x },
         [SwarmEvent.taskAssigned assignment])
  | _, _ =>
    (st, [SwarmEvent.taskAssignmentFailed taskId "No valid bids received"])

/-- A concrete task used by the distributor witnesses. -/
def demoTask : Task :=
  { id := "t1"
    description := "demo"
    requiredCapabilities := ["nlp"]
    bounty := 100
    deadline := 1000
    requester := "0.0.2"
    minAgents := some 1
    maxAgents := some 3 }

/-- A concrete valid bid on `demoTask`. -/
def demoBid : AgentBid :=
  { agentId := "0.0.9"
    taskId := "t1"
    estimatedTime := 100
    requestedReward := 50
    confidence := 9/10
    capabilities := ["nlp"]
    reputation := 100 }

/-- The state right after `demoTask` is announced. -/
def demoAnnouncedState : DistributorState :=
  (announceTask emptyDistributorState demoTask).1

/-- The state after `demoTask` is announced and `demoBid` submitted. -/
def demoBidState : DistributorState :=
  (submitBid demoAnnouncedState demoBid).state

/-- The state after `demoTask` is announced and then cancelled. -/
def demoCancelledState : DistributorState :=
  (cancelTask demoAnnouncedState "t1" "emergency").1

/-! ### C1: weighted tally with participation gate -/

/-- C1: at finalization, a proposal with fewer than `minParticipants` total
votes is never accepted; otherwise it is accepted iff
`supportWeight / (supportWeight + rejectWeight) ≥ votingThreshold`
(recorded vote weights are reputation scores, hence nonnegative). -/
theorem C1_consensus_tally (cfg : ConsensusConfig) (p : ConsensusProposal)
    (hs : ∀ v ∈ p.supporters, 0 ≤ v.weight)
    (hr : ∀ v ∈ p.rejectors, 0 ≤ v.weight) :
    (calculateConsensus cfg p).accepted = true ↔
      (cfg.minParticipants ≤ totalVotes p ∧
       cfg.votingThreshold ≤
         supportWeight p / (supportWeight p + rejectWeight p)) := by
  have hsw : 0 ≤ supportWeight p := by
    apply List.sum_nonneg
    intro x hx
    obtain ⟨v, hv, rfl⟩ := List.mem_map.mp hx
    exact hs v hv
  have hrw : 0 ≤ rejectWeight p := by
    apply List.sum_nonneg
    intro x hx
    obtain ⟨v, hv, rfl⟩ := List.mem_map.mp hx
    exact hr v hv
  unfold calculateConsensus
  by_cases hlt : totalVotes p < cfg.minParticipants
  · simp [hlt]
  · simp only [hlt, if_false]
    have hge : cfg.minParticipants ≤ totalVotes p := Nat.le_of_not_lt hlt
    by_cases hpos : 0 < supportWeight p + rejectWeight p
    · simp [hpos, hge, decide_eq_true_eq]
    · have hzero : supportWeight p + rejectWeight p = 0 := le_antisymm
        (not_lt.mp hpos) (by linarith)
      simp [hpos, hge, hzero, decide_eq_true_eq]

/-- Witness for C1 at the spec's quorum scenario: three votes of weights
100, 100 against 50 give ratio 200/250 = 0.8 ≥ 0.66, hence accepted. -/
theorem C1_consensus_tally_witness :
    (calculateConsensus defaultConsensusConfig quorumProposal).accepted = true := by
  have h := C1_consensus_tally defaultConsensusConfig quorumProposal
    (by
      intro v hv
      simp only [quorumProposal, List.mem_cons, List.not_mem_nil, or_false] at hv
      rcases hv with rfl | rfl <;> norm_num)
    (by
      intro v hv
      simp only [quorumProposal, List.mem_cons, List.not_mem_nil, or_false] at hv
      rcases hv with rfl
      norm_num)
  exact h.mpr ⟨by norm_num [totalVotes, defaultConsensusConfig, quorumProposal],
    by norm_num [supportWeight, rejectWeight, defaultConsensusConfig, quorumProposal]⟩

/-! ### C2: early termination of voting -/

/-- C2: after a vote is recorded on a pending proposal, the
early-termination check finalizes it immediately (its status leaves
`pending` before the deadline timer) exactly when
`supportWeight / (supportWeight + rejectWeight + R·C) ≥ votingThreshold`,
where `R = N − totalVotes` for the assumed eligible population
`N = totalPossibleVoters` and `C = 100` is the per-voter worst-case weight
cap.  The denominator is positive in every reachable configuration. -/
theorem C2_early_termination (cfg : ConsensusConfig) (p : ConsensusProposal)
    (hpend : p.status = ProposalStatus.pending)
    (hden : 0 < supportWeight p + rejectWeight p +
      ((totalPossibleVoters : ℚ) - (totalVotes p : ℚ)) * 100) :
    ((afterVoteEarlyCheck cfg p).status ≠ ProposalStatus.pending ↔
      cfg.votingThreshold ≤ supportWeight p /
        (supportWeight p + rejectWeight p +
          ((totalPossibleVoters : ℚ) - (totalVotes p : ℚ)) * 100)) := by
  have htv : (calculateConsensus cfg p).totalVotes = totalVotes p := by
    by_cases h : totalVotes p < cfg.minParticipants <;>
      simp [calculateConsensus, h]
  have hcheck : checkEarlyConsensus cfg p
      = decide (cfg.votingThreshold ≤ supportWeight p /
          (supportWeight p + rejectWeight p +
            ((totalPossibleVoters : ℚ) - (totalVotes p : ℚ)) * 100)) := by
    unfold checkEarlyConsensus
    rw [hpend]
    simp only [ne_eq, not_true_eq_false, if_false, htv]
    norm_num
  rw [afterVoteEarlyCheck, hcheck]
  by_cases hc : cfg.votingThreshold ≤ supportWeight p /
      (supportWeight p + rejectWeight p +
        ((totalPossibleVoters : ℚ) - (totalVotes p : ℚ)) * 100)
  · rw [if_pos (decide_eq_true hc)]
    simp only [hc, iff_true]
    unfold evaluateProposal
    rw [if_neg (show ¬ (p.status ≠ ProposalStatus.pending) by simp [hpend])]
    split <;> simp
  · rw [if_neg (by simp [hc])]
    simp [hc, hpend]

/-- Witness for C2: seven supporters of weight 100 and no rejectors give
lower bound 700/(700 + 3·100) = 0.7 ≥ 0.66, so the proposal leaves
`pending` at the vote rather than at the deadline. -/
theorem C2_early_termination_witness :
    (afterVoteEarlyCheck defaultConsensusConfig earlyProposal).status ≠
      ProposalStatus.pending := by
  have h := C2_early_termination defaultConsensusConfig earlyProposal rfl
    (by norm_num [supportWeight, rejectWeight, totalVotes, earlyProposal,
      totalPossibleVoters])
  exact h.mpr (by norm_num [supportWeight, rejectWeight, totalVotes,
    earlyProposal, totalPossibleVoters, defaultConsensusConfig])

/-! ### C8: weight of a first-contact voter -/

/-- C8 counterexample: with the default configuration (reputation weighting
on) and an empty ledger, the weight captured for a first-contact voter is
50 — not the first-contact reputation score 100 the claim states. -/
theorem C8_counterexample :
    getAgentWeight defaultConsensusConfig emptyReps "0.0.1001" = 50 ∧
    getAgentWeight defaultConsensusConfig emptyReps "0.0.1001" ≠ 100 := by
  constructor
  · simp [getAgentWeight, defaultConsensusConfig, emptyReps]
  · simp only [getAgentWeight, defaultConsensusConfig, emptyReps]
    norm_num

/-- C8 amended: the vote weight captured for a voter with no ledger record
is the new-agent default 50 (not 100); the 100-point starting score applies
only to the ledger record `adjustReputation` creates on first adjustment,
whose stored score becomes `clamp(100 + delta)`. -/
theorem C8_amended_default_weight (cfg : ConsensusConfig)
    (reps : ReputationMap) (a : String) (d : ℚ)
    (hw : cfg.reputationWeighting = true) (h : reps a = none) :
    getAgentWeight cfg reps a = 50 ∧
    (adjustReputation reps a d a).map AgentReputation.score =
      some (clampScore (100 + d)) := by
  constructor
  · simp [getAgentWeight, hw, h]
  · simp [adjustReputation, h, bumpReputation, freshReputation, add_comm]

/-- Witness for C8's amended claim at an empty ledger. -/
theorem C8_amended_default_weight_witness :
    getAgentWeight defaultConsensusConfig emptyReps "0.0.7" = 50 ∧
    (adjustReputation emptyReps "0.0.7" 5 "0.0.7").map AgentReputation.score =
      some 105 := by
  have h := C8_amended_default_weight defaultConsensusConfig emptyReps
    "0.0.7" 5 rfl rfl
  exact ⟨h.1, h.2.trans (by norm_num [clampScore])⟩

/-! ### C6: reputation bounds -/

/-- C6 counterexample: `loadReputations` stores external records without
clamping, so loading a record with score 300 leaves a stored score of 300,
which violates the upper bound 200. -/
theorem C6_counterexample :
    ((loadReputations emptyReps
        [{ accountId := "a", score := 300, tasksCompleted := 0,
           consensusParticipation := 0 }]) "a").map AgentReputation.score =
      some 300 ∧ ¬ ((300 : ℚ) ≤ 200) := by
  constructor
  · simp [loadReputations, emptyReps]
  · norm_num

/-- Loading records that respect the [0, 200] bound preserves the ledger
invariant. -/
theorem loadReputations_repInvariant (reputationData : List AgentReputation) :
    ∀ reps : ReputationMap, repInvariant reps →
      (∀ r ∈ reputationData, 0 ≤ r.score ∧ r.score ≤ 200) →
      repInvariant (loadReputations reps reputationData) := by
  induction reputationData with
  | nil =>
    intro reps hinv _
    exact hinv
  | cons rep rest ih =>
    intro reps hinv hdata
    show repInvariant
      (loadReputations (fun x => if x = rep.accountId then some rep else reps x) rest)
    apply ih
    · intro x r h
      dsimp only at h
      by_cases hx : x = rep.accountId
      · rw [if_pos hx] at h
        cases h
        exact hdata rep (List.mem_cons_self rep rest)
      · rw [if_neg hx] at h
        exact hinv x r h
    · intro r hr
      exact hdata r (List.mem_cons_of_mem rep hr)

/-- C6 amended: every score written by `adjustReputation` lies in [0, 200]
and the bound is an invariant of adjustments, but `loadReputations` copies
external scores unvalidated, so after a load the bound holds only if the
loaded data already satisfies it. -/
theorem C6_amended_reputation_bounds (reps : ReputationMap) (a : String)
    (d : ℚ) (reputationData : List AgentReputation)
    (hinv : repInvariant reps)
    (hdata : ∀ r ∈ reputationData, 0 ≤ r.score ∧ r.score ≤ 200) :
    repInvariant (adjustReputation reps a d) ∧
    repInvariant (loadReputations reps reputationData) := by
  have hclamp : ∀ x : ℚ, 0 ≤ clampScore x ∧ clampScore x ≤ 200 := by
    intro x
    refine ⟨le_max_left 0 _, max_le (by norm_num) (min_le_left 200 x)⟩
  constructor
  · intro x r h
    unfold adjustReputation at h
    by_cases hx : x = a
    · rw [if_pos hx] at h
      cases h
      exact hclamp _
    · rw [if_neg hx] at h
      exact hinv x r h
  · exact loadReputations_repInvariant reputationData reps hinv hdata

/-- Witness for C6's amended claim: an adjustment on an empty ledger and a
load of one in-range record both preserve the bound. -/
theorem C6_amended_reputation_bounds_witness :
    repInvariant (adjustReputation emptyReps "a" 5) ∧
    repInvariant (loadReputations emptyReps
      [{ accountId := "b", score := 150, tasksCompleted := 0,
         consensusParticipation := 0 }]) := by
  refine C6_amended_reputation_bounds emptyReps "a" 5 _ ?_ ?_
  · intro x r h
    simp [emptyReps] at h
  · intro r hr
    simp only [List.mem_singleton] at hr
    subst hr
    norm_num


/-! ### C5: reputation deltas at finalization -/

/-- Reading `adjustReputation` at an account other than the adjusted one. -/
theorem adjustReputation_apply_ne (reps : ReputationMap) (a x : String)
    (d : ℚ) (h : x ≠ a) : adjustReputation reps a d x = reps x := by
  unfold adjustReputation
  rw [if_neg h]

/-- Reading `adjustReputation` at the adjusted account. -/
theorem adjustReputation_apply_self (reps : ReputationMap) (a : String)
    (d : ℚ) : adjustReputation reps a d a =
      some (bumpReputation ((reps a).getD (freshReputation a)) d) := by
  unfold adjustReputation
  rw [if_pos rfl]

/-- A fold of adjustments leaves accounts outside the list unchanged. -/
theorem adjustAll_apply_notMem (l : List String) :
    ∀ (reps : ReputationMap) (d : ℚ) (x : String), x ∉ l →
      adjustAll reps l d x = reps x := by
  induction l with
  | nil =>
    intro reps d x _
    rfl
  | cons v t ih =>
    intro reps d x hx
    have hxv : x ≠ v := fun h => hx (h ▸ List.mem_cons_self v t)
    have hxt : x ∉ t := fun h => hx (List.mem_cons_of_mem v h)
    show adjustAll (adjustReputation reps v d) t d x = reps x
    rw [ih _ _ _ hxt, adjustReputation_apply_ne _ _ _ _ hxv]

/-- A fold of adjustments over distinct voters adjusts a member's record
exactly once. -/
theorem adjustAll_apply_mem (l : List String) :
    ∀ (reps : ReputationMap) (d : ℚ) (x : String), x ∈ l → l.Nodup →
      adjustAll reps l d x =
        some (bumpReputation ((reps x).getD (freshReputation x)) d) := by
  induction l with
  | nil =>
    intro reps d x hx _
    cases hx
  | cons v t ih =>
    intro reps d x hx hnd
    show adjustAll (adjustReputation reps v d) t d x = _
    rcases List.mem_cons.mp hx with rfl | hxt
    · have hxt : x ∉ t := (List.nodup_cons.mp hnd).1
      rw [adjustAll_apply_notMem t _ _ _ hxt, adjustReputation_apply_self]
    · have hxv : x ≠ v := by
        rintro rfl
        exact (List.nodup_cons.mp hnd).1 hxt
      rw [ih _ _ _ hxt (List.nodup_cons.mp hnd).2,
        adjustReputation_apply_ne _ _ _ _ hxv]

/-- `updateReputations` on an accepted outcome, unfolded. -/
theorem updateReputations_true (reps : ReputationMap)
    (p : ConsensusProposal) :
    updateReputations reps p true =
      adjustReputation
        (adjustAll (adjustAll reps (p.supporters.map Vote.voter) 5)
          (p.rejectors.map Vote.voter) (-2)) p.proposer 10 := rfl

/-- `updateReputations` on a rejected outcome, unfolded. -/
theorem updateReputations_false (reps : ReputationMap)
    (p : ConsensusProposal) :
    updateReputations reps p false =
      adjustAll (adjustAll reps (p.rejectors.map Vote.voter) 5)
        (p.supporters.map Vote.voter) (-2) := rfl

/-- C5: at finalization every voter on the winning side gains 5, every
voter on the losing side loses 2, and the proposer (pre-registered as a
supporter) additionally gains 10 when the proposal is accepted, each
adjustment clamped to [0, 200].  Unrecorded voters enter at score 100. -/
theorem C5_finalize_reputation_deltas (reps : ReputationMap)
    (p : ConsensusProposal) (accepted : Bool)
    (hprop : p.proposer ∈ p.supporters.map Vote.voter)
    (hndS : (p.supporters.map Vote.voter).Nodup)
    (hndR : (p.rejectors.map Vote.voter).Nodup)
    (hdisj : ∀ a ∈ p.supporters.map Vote.voter,
      a ∉ p.rejectors.map Vote.voter) :
    (∀ a ∈ (if accepted then p.supporters else p.rejectors).map Vote.voter,
      a ≠ p.proposer →
      (updateReputations reps p accepted a).map AgentReputation.score =
        some (clampScore (repScore reps a + 5))) ∧
    (∀ a ∈ (if accepted then p.rejectors else p.supporters).map Vote.voter,
      a ≠ p.proposer →
      (updateReputations reps p accepted a).map AgentReputation.score =
        some (clampScore (repScore reps a - 2))) ∧
    (accepted = true →
      (updateReputations reps p accepted p.proposer).map
          AgentReputation.score =
        some (clampScore (clampScore (repScore reps p.proposer + 5) + 10))) ∧
    (accepted = false →
      (updateReputations reps p accepted p.proposer).map
          AgentReputation.score =
        some (clampScore (repScore reps p.proposer - 2))) := by
  cases accepted with
  | true =>
    have hPnotR : p.proposer ∉ p.rejectors.map Vote.voter := hdisj _ hprop
    refine ⟨?_, ?_, ?_, ?_⟩
    · intro a ha hne
      rw [if_pos rfl] at ha
      rw [updateReputations_true,
        adjustReputation_apply_ne _ _ _ _ hne,
        adjustAll_apply_notMem _ _ _ _ (hdisj a ha),
        adjustAll_apply_mem _ _ _ _ ha hndS]
      simp [bumpReputation, repScore]
    · intro a ha hne
      rw [if_pos rfl] at ha
      have haS : a ∉ p.supporters.map Vote.voter := fun h => hdisj a h ha
      rw [updateReputations_true,
        adjustReputation_apply_ne _ _ _ _ hne,
        adjustAll_apply_mem _ _ _ _ ha hndR,
        adjustAll_apply_notMem _ _ _ _ haS]
      simp [bumpReputation, repScore, sub_eq_add_neg]
    · intro _
      rw [updateReputations_true,
        adjustReputation_apply_self,
        adjustAll_apply_notMem _ _ _ _ hPnotR,
        adjustAll_apply_mem _ _ _ _ hprop hndS]
      simp [bumpReputation, repScore]
    · intro h
      cases h
  | false =>
    refine ⟨?_, ?_, ?_, ?_⟩
    · intro a ha hne
      rw [if_neg (by simp)] at ha
      have haS : a ∉ p.supporters.map Vote.voter := fun h => hdisj a h ha
      rw [updateReputations_false,
        adjustAll_apply_notMem _ _ _ _ haS,
        adjustAll_apply_mem _ _ _ _ ha hndR]
      simp [bumpReputation, repScore]
    · intro a ha hne
      rw [if_neg (by simp)] at ha
      rw [updateReputations_false,
        adjustAll_apply_mem _ _ _ _ ha hndS,
        adjustAll_apply_notMem _ _ _ _ (hdisj a ha)]
      simp [bumpReputation, repScore, sub_eq_add_neg]
    · intro h
      cases h
    · intro _
      rw [updateReputations_false,
        adjustAll_apply_mem _ _ _ _ hprop hndS,
        adjustAll_apply_notMem _ _ _ _ (hdisj _ hprop)]
      simp [bumpReputation, repScore, sub_eq_add_neg]

/-- Witness for C5 at the spec's quorum scenario: the proposal is accepted,
supporter `a2` moves 100 → 105, proposer `a1` moves 100 → 115 (+5 then
+10), rejector `a3` moves 100 → 98. -/
theorem C5_finalize_reputation_deltas_witness :
    (calculateConsensus defaultConsensusConfig quorumProposal).accepted =
      true ∧
    (updateReputations emptyReps quorumProposal true "a2").map
        AgentReputation.score = some 105 ∧
    (updateReputations emptyReps quorumProposal true "a1").map
        AgentReputation.score = some 115 ∧
    (updateReputations emptyReps quorumProposal true "a3").map
        AgentReputation.score = some 98 := by
  have h := C5_finalize_reputation_deltas emptyReps quorumProposal true
    (by simp [quorumProposal])
    (by simp [quorumProposal])
    (by simp [quorumProposal])
    (by
      intro a ha
      simp only [quorumProposal, List.map_cons, List.map_nil, List.mem_cons,
        List.not_mem_nil, or_false] at ha ⊢
      rcases ha with rfl | rfl <;> simp)
  refine ⟨?_, ?_, ?_, ?_⟩
  · norm_num [calculateConsensus, supportWeight, rejectWeight, totalVotes,
      quorumProposal, defaultConsensusConfig]
  · exact (h.1 "a2" (by simp [quorumProposal]) (by simp [quorumProposal])).trans
      (by norm_num [repScore, emptyReps, freshReputation, clampScore,
        min_def, max_def])
  · exact (h.2.2.1 rfl).trans
      (by norm_num [repScore, emptyReps, freshReputation, clampScore,
        min_def, max_def])
  · exact (h.2.1 "a3" (by simp [quorumProposal]) (by simp [quorumProposal])).trans
      (by norm_num [repScore, emptyReps, freshReputation, clampScore,
        min_def, max_def])


/-! ### C3: bid scoring formula -/

/-- C3: the score `scoreBids` attaches to a bid equals the spec's formula
`0.4·min(reputation/100,1) + 0.3·confidence + 0.3·max(0, 1 − reward/bounty)
+ 0.2·capabilityScore + 0.1·timeScore`, multiplied by 0.8 exactly when the
bidder's active-task count (0 when no profile is registered) exceeds 3. -/
theorem C3_bid_scoring (profiles : String → Option AgentProfile)
    (task : Task) (now : ℚ) (bid : AgentBid) :
    scoreBid profiles task now bid =
      specBidScore task now bid
        ((profiles bid.agentId).elim 0 AgentProfile.activeTaskCount) := by
  cases hp : profiles bid.agentId with
  | none =>
    simp only [scoreBid, specBidScore, specCapabilityScore,
      calculateCapabilityScore, distributorConfig, hp, Option.elim]
    rw [if_neg (by norm_num)]
    ring_nf
  | some agentProfile =>
    simp only [scoreBid, specBidScore, specCapabilityScore,
      calculateCapabilityScore, distributorConfig, hp, Option.elim]
    by_cases hc : 3 < agentProfile.activeTaskCount
    · rw [if_pos hc, if_pos hc]
      ring_nf
    · rw [if_neg hc, if_neg hc]
      ring_nf

/-! ### C4: sorting and greedy selection -/

/-- The descending comparator is transitive. -/
theorem byScoreDesc_trans : ∀ a b c : ScoredBid,
    byScoreDesc a b → byScoreDesc b c → byScoreDesc a c := by
  intro a b c hab hbc
  simp only [byScoreDesc, decide_eq_true_eq] at hab hbc ⊢
  exact le_trans hbc hab

/-- The descending comparator is total. -/
theorem byScoreDesc_total : ∀ a b : ScoredBid,
    byScoreDesc a b || byScoreDesc b a := by
  intro a b
  simp only [byScoreDesc, Bool.or_eq_true, decide_eq_true_eq]
  exact le_total b.score a.score

/-- The source's greedy loop computes the claim's walk: the length test on
freshly contributed capability tags is the existence of an uncovered tag. -/
theorem selectGreedyGo_eq_specSelectWalk (minAgents maxAgents : ℕ) :
    ∀ (l selected : List ScoredBid) (used : List String),
      selectGreedyGo minAgents maxAgents l selected used =
        specSelectWalk minAgents maxAgents l selected used := by
  intro l
  induction l with
  | nil =>
    intro selected used
    rfl
  | cons b rest ih =>
    intro selected used
    have hcap : (0 < (b.bid.capabilities.filter fun cap =>
        !(used.contains cap)).length) ↔
        (∃ cap ∈ b.bid.capabilities, cap ∉ used) := by
      rw [List.length_pos_iff_exists_mem]
      constructor
      · rintro ⟨c, hc⟩
        rw [List.mem_filter] at hc
        exact ⟨c, hc.1, by simpa using hc.2⟩
      · rintro ⟨c, hc1, hc2⟩
        exact ⟨c, List.mem_filter.mpr ⟨hc1, by simpa using hc2⟩⟩
    by_cases hmax : maxAgents ≤ selected.length
    · simp only [selectGreedyGo, specSelectWalk]
      rw [if_pos hmax, if_pos hmax]
    · by_cases hsel : selected.length < minAgents ∨
          0 < (b.bid.capabilities.filter fun cap =>
            !(used.contains cap)).length ∨
          (8/10 : ℚ) < b.score
      · have hsel2 : selected.length < minAgents ∨
            (∃ cap ∈ b.bid.capabilities, cap ∉ used) ∨
            (8/10 : ℚ) < b.score := by
          rcases hsel with h | h | h
          · exact Or.inl h
          · exact Or.inr (Or.inl (hcap.mp h))
          · exact Or.inr (Or.inr h)
        simp only [selectGreedyGo, specSelectWalk]
        rw [if_neg hmax, if_neg hmax, if_pos hsel, if_pos hsel2]
        exact ih _ _
      · have hsel2 : ¬ (selected.length < minAgents ∨
            (∃ cap ∈ b.bid.capabilities, cap ∉ used) ∨
            (8/10 : ℚ) < b.score) := by
          intro h
          apply hsel
          rcases h with h | h | h
          · exact Or.inl h
          · exact Or.inr (Or.inl (hcap.mpr h))
          · exact Or.inr (Or.inr h)
        simp only [selectGreedyGo, specSelectWalk]
        rw [if_neg hmax, if_neg hmax, if_neg hsel, if_neg hsel2]
        exact ih _ _

/-- C4: at evaluation the scored bids are a permutation of the input in
descending score order, equal scores keep submission order (every
equal-score pair that is a sublist of the unsorted list survives into the
sorted one), and the source's selection — greedy walk plus
minimum-override — computes exactly the claim's selection rule. -/
theorem C4_sorted_greedy_selection (profiles : String → Option AgentProfile)
    (task : Task) (now : ℚ) (bids : List AgentBid)
    (minAgents maxAgents : ℕ) (hne : bids ≠ []) :
    (scoreBids profiles task now bids).Perm
      (bids.map fun b => ScoredBid.mk b (scoreBid profiles task now b)) ∧
    (scoreBids profiles task now bids).Pairwise
      (fun a b => b.score ≤ a.score) ∧
    (∀ a b : ScoredBid,
      List.Sublist [a, b] (bids.map fun b' =>
        ScoredBid.mk b' (scoreBid profiles task now b')) →
      a.score = b.score →
      List.Sublist [a, b] (scoreBids profiles task now bids)) ∧
    selectOptimalAgents (scoreBids profiles task now bids)
        minAgents maxAgents =
      specSelect (scoreBids profiles task now bids) minAgents maxAgents := by
  refine ⟨List.mergeSort_perm _ _, ?_, ?_, ?_⟩
  · have h := List.sorted_mergeSort byScoreDesc_trans byScoreDesc_total
      (bids.map fun b => ScoredBid.mk b (scoreBid profiles task now b))
    exact h.imp fun hab => by simpa [byScoreDesc] using hab
  · intro a b hsub heq
    apply List.sublist_mergeSort byScoreDesc_trans byScoreDesc_total ?_ hsub
    simp [byScoreDesc, heq]
  · unfold selectOptimalAgents specSelect
    rw [selectGreedyGo_eq_specSelectWalk]

/-- Witness for C4: the selection equality evaluated on a singleton bid
list. -/
theorem C4_sorted_greedy_selection_witness :
    selectOptimalAgents (scoreBids (fun _ => none) demoTask 0 [demoBid]) 1 5 =
      specSelect (scoreBids (fun _ => none) demoTask 0 [demoBid]) 1 5 :=
  (C4_sorted_greedy_selection (fun _ => none) demoTask 0 [demoBid] 1 5
    (by simp)).2.2.2


/-! ### C7: submitBid checks -/

/-- The capability gate of `submitBid` checks set inclusion of the required
tags in the declared tags. -/
theorem validateCapabilities_iff (agentCapabilities requiredCapabilities :
    List String) :
    validateCapabilities agentCapabilities requiredCapabilities = true ↔
      ∀ cap ∈ requiredCapabilities, cap ∈ agentCapabilities := by
  simp [validateCapabilities]

/-- C7: `submitBid` fails with `unknownTask` iff the task id is not queued;
on a queued task it fails with `duplicateBid` iff the bidder already bid,
with `capabilityMismatch` iff the bidder is new but lacks some required
capability, and succeeds iff the bidder is new and covers every required
capability; success appends the bid and emits `bidSubmitted`, and every
failure leaves the state unchanged and emits nothing. -/
theorem C7_submitBid_checks (st : DistributorState) (bid : AgentBid) :
    ((submitBid st bid).error = some BidError.unknownTask ↔
      st.taskQueue bid.taskId = none) ∧
    (∀ task, st.taskQueue bid.taskId = some task →
      (((submitBid st bid).error = some BidError.duplicateBid) ↔
        ∃ b ∈ (st.agentBids bid.taskId).getD [],
          b.agentId = bid.agentId) ∧
      (((submitBid st bid).error = some BidError.capabilityMismatch) ↔
        ((¬ ∃ b ∈ (st.agentBids bid.taskId).getD [],
            b.agentId = bid.agentId) ∧
          ∃ cap ∈ task.requiredCapabilities, cap ∉ bid.capabilities)) ∧
      (((submitBid st bid).error = none) ↔
        ((¬ ∃ b ∈ (st.agentBids bid.taskId).getD [],
            b.agentId = bid.agentId) ∧
          ∀ cap ∈ task.requiredCapabilities, cap ∈ bid.capabilities)) ∧
      ((submitBid st bid).error = none →
        (submitBid st bid).state.agentBids bid.taskId =
          some ((st.agentBids bid.taskId).getD [] ++ [bid]) ∧
        (submitBid st bid).events = [SwarmEvent.bidSubmitted bid])) ∧
    ((submitBid st bid).error ≠ none →
      (submitBid st bid).state = st ∧ (submitBid st bid).events = []) := by
  cases ht : st.taskQueue bid.taskId with
  | none =>
    refine ⟨by simp [submitBid, ht], ?_, ?_⟩
    · intro task htask
      exact Option.noConfusion htask
    · intro _
      simp [submitBid, ht]
  | some task0 =>
    have hdup : ((st.agentBids bid.taskId).getD []).any
        (fun b => b.agentId == bid.agentId) = true ↔
        ∃ b ∈ (st.agentBids bid.taskId).getD [],
          b.agentId = bid.agentId := by
      simp [List.any_eq_true]
    refine ⟨by
      simp only [submitBid, ht]
      split
      · simp
      · split <;> simp [ht], ?_, ?_⟩
    · intro task htask
      replace htask := Option.some.inj htask
      subst htask
      by_cases hd : ((st.agentBids bid.taskId).getD []).any
          (fun b => b.agentId == bid.agentId) = true
      · have hd' := hdup.mp hd
        simp only [submitBid, ht, hd, if_true]
        refine ⟨by simpa using hd', by simp [hd'], by simp [hd'], by simp⟩
      · have hd' := fun h => hd (hdup.mpr h)
        by_cases hc : validateCapabilities bid.capabilities
            task0.requiredCapabilities = true
        · have hc' := (validateCapabilities_iff _ _).mp hc
          simp only [submitBid, ht]
          rw [if_neg (fun hcon => hd' (by simpa using hcon)), if_neg (not_not_intro hc)]
          refine ⟨⟨fun h => by simp at h, fun h => (hd' h).elim⟩, ?_, ?_, ?_⟩
          · simp only [Option.some.injEq]
            constructor
            · intro h
              cases h
            · rintro ⟨-, cap, hcap, habs⟩
              exact absurd (hc' cap hcap) habs
          · simp only [true_iff]
            exact ⟨hd', hc'⟩
          · intro _
            constructor
            · simp
            · rfl
        · have hc2 : ∃ cap ∈ task0.requiredCapabilities,
              cap ∉ bid.capabilities := by
            by_contra habs
            push_neg at habs
            exact hc ((validateCapabilities_iff _ _).mpr habs)
          simp only [submitBid, ht]
          rw [if_neg (fun hcon => hd' (by simpa using hcon)), if_pos hc]
          refine ⟨⟨fun h => by simp at h, fun h => (hd' h).elim⟩,
            ⟨fun _ => ⟨hd', hc2⟩, fun _ => rfl⟩, ?_, by simp⟩
          · simp only [Option.some.injEq]
            constructor
            · intro h
              cases h
            · rintro ⟨-, hall⟩
              exact (hc ((validateCapabilities_iff _ _).mpr hall)).elim
    · intro herr
      by_cases hd : ((st.agentBids bid.taskId).getD []).any
          (fun b => b.agentId == bid.agentId) = true
      · simp [submitBid, ht, hd]
      · by_cases hc : validateCapabilities bid.capabilities
            task0.requiredCapabilities = true
        · exfalso
          apply herr
          simp [submitBid, ht, hd, hc]
        · simp [submitBid, ht, hd, hc]

/-- Witness for C7: a fresh valid bid on an announced task succeeds and
notifies observers. -/
theorem C7_submitBid_checks_witness :
    (submitBid demoAnnouncedState demoBid).error = none ∧
    (submitBid demoAnnouncedState demoBid).events =
      [SwarmEvent.bidSubmitted demoBid] := by
  have h := C7_submitBid_checks demoAnnouncedState demoBid
  have htask : demoAnnouncedState.taskQueue demoBid.taskId = some demoTask := by
    simp [demoAnnouncedState, announceTask, emptyDistributorState, demoTask,
      demoBid]
  have hok : (submitBid demoAnnouncedState demoBid).error = none :=
    ((h.2.1 demoTask htask).2.2.1).mpr
      ⟨by
        simp [demoAnnouncedState, announceTask, emptyDistributorState,
          demoBid, demoTask],
       by
        intro cap hcap
        simp only [demoTask, List.mem_singleton] at hcap
        subst hcap
        simp [demoBid]⟩
  exact ⟨hok, ((h.2.1 demoTask htask).2.2.2 hok).2⟩

/-! ### C9: evaluation after cancellation -/

/-- C9 counterexample: evaluating a task that has been cancelled (hence is
no longer queued) is not a silent no-op — it emits a
`taskAssignmentFailed` event. -/
theorem C9_counterexample :
    (evaluateBidsAndAssign demoCancelledState 0 "t1").2 =
      [SwarmEvent.taskAssignmentFailed "t1" "No valid bids received"] ∧
    (evaluateBidsAndAssign demoCancelledState 0 "t1").2 ≠ [] := by
  have h : demoCancelledState.taskQueue "t1" = none := by
    simp [demoCancelledState, cancelTask, demoAnnouncedState, announceTask,
      emptyDistributorState]
  cases hb : demoCancelledState.agentBids "t1" with
  | none => simp [evaluateBidsAndAssign, h, hb]
  | some bids => simp [evaluateBidsAndAssign, h, hb]

/-- C9 amended: when the evaluated task is no longer in the open queue,
`evaluate` creates no assignment and mutates no state, but it does emit
`taskAssignmentFailed` with reason "No valid bids received". -/
theorem C9_amended_evaluate_missing_task (st : DistributorState) (now : ℚ)
    (taskId : String) (h : st.taskQueue taskId = none) :
    (evaluateBidsAndAssign st now taskId).1 = st ∧
    (evaluateBidsAndAssign st now taskId).2 =
      [SwarmEvent.taskAssignmentFailed taskId "No valid bids received"] := by
  cases hb : st.agentBids taskId with
  | none => simp [evaluateBidsAndAssign, h, hb]
  | some bids => simp [evaluateBidsAndAssign, h, hb]

/-- Witness for C9's amended claim at the concrete cancelled state. -/
theorem C9_amended_evaluate_missing_task_witness :
    (evaluateBidsAndAssign demoCancelledState 0 "t1").1 =
      demoCancelledState ∧
    (evaluateBidsAndAssign demoCancelledState 0 "t1").2 =
      [SwarmEvent.taskAssignmentFailed "t1" "No valid bids received"] :=
  C9_amended_evaluate_missing_task demoCancelledState 0 "t1" (by
    simp [demoCancelledState, cancelTask, demoAnnouncedState, announceTask,
      emptyDistributorState])


/-! ### C10: a non-empty bid list always yields an assignment -/

/-- The greedy loop never drops already-selected bids. -/
theorem selectGreedyGo_length_le (minAgents maxAgents : ℕ) :
    ∀ (l selected : List ScoredBid) (used : List String),
      selected.length ≤
        (selectGreedyGo minAgents maxAgents l selected used).length := by
  intro l
  induction l with
  | nil =>
    intro selected used
    exact le_refl _
  | cons b rest ih =>
    intro selected used
    by_cases hmax : maxAgents ≤ selected.length
    · simp only [selectGreedyGo]
      rw [if_pos hmax]
    · by_cases hsel : selected.length < minAgents ∨
          0 < (b.bid.capabilities.filter fun cap =>
            !(used.contains cap)).length ∨
          (8/10 : ℚ) < b.score
      · simp only [selectGreedyGo]
        rw [if_neg hmax, if_pos hsel]
        refine le_trans ?_ (ih _ _)
        simp
      · simp only [selectGreedyGo]
        rw [if_neg hmax, if_neg hsel]
        exact ih _ _

/-- With positive minimum and maximum, selection from a non-empty sorted
list is non-empty: the top bid is taken (count 0 is below the minimum) and
the minimum-override also returns at least one bid. -/
theorem selectOptimalAgents_ne_nil (scoredBids : List ScoredBid)
    (minAgents maxAgents : ℕ) (hs : scoredBids ≠ [])
    (hmin : 0 < minAgents) (hmax : 0 < maxAgents) :
    selectOptimalAgents scoredBids minAgents maxAgents ≠ [] := by
  obtain ⟨b, rest, rfl⟩ := List.exists_cons_of_ne_nil hs
  have hgo : 1 ≤
      (selectGreedyGo minAgents maxAgents (b :: rest) [] []).length := by
    have h1 : ¬ maxAgents ≤ ([] : List ScoredBid).length := by
      simp only [List.length_nil]
      omega
    simp only [selectGreedyGo]
    rw [if_neg h1, if_pos (Or.inl (by simpa using hmin))]
    have h2 := selectGreedyGo_length_le minAgents maxAgents rest
      (([] : List ScoredBid) ++ [b]) (([] : List String) ++ b.bid.capabilities)
    simpa using h2
  unfold selectOptimalAgents
  by_cases hov :
      (selectGreedyGo minAgents maxAgents (b :: rest) [] []).length <
        minAgents ∧ minAgents ≤ (b :: rest).length
  · rw [if_pos hov]
    intro hnil
    have hlen := congrArg List.length hnil
    simp only [List.length_take, List.length_nil] at hlen
    have := hov.2
    simp only [List.length_cons] at this
    omega
  · rw [if_neg hov]
    intro hnil
    rw [hnil] at hgo
    simp at hgo

/-- The `x || d` defaulting gives a positive count whenever `d` is
positive. -/
theorem effectiveOr_pos (v : Option ℕ) (d : ℕ) (hd : 0 < d) :
    0 < effectiveOr v d := by
  cases v with
  | none => exact hd
  | some n =>
    by_cases hn : n = 0
    · simp [effectiveOr, hn]
      exact hd
    · simp [effectiveOr, hn]
      omega

/-- C10: when the evaluated task is still queued and its bid list is
non-empty, evaluation always emits `taskAssigned` with a non-empty
assignee list — the `taskAssignmentFailed` outcome with reason
"No suitable agents found" is unreachable. -/
theorem C10_assignment_always_created (st : DistributorState) (now : ℚ)
    (taskId : String) (task : Task) (bids : List AgentBid)
    (htask : st.taskQueue taskId = some task)
    (hbids : st.agentBids taskId = some bids) (hne : bids ≠ []) :
    ∃ assignment : TaskAssignment,
      (evaluateBidsAndAssign st now taskId).2 =
        [SwarmEvent.taskAssigned assignment] ∧
      assignment.assignedAgents ≠ [] := by
  have hscored : scoreBids st.agentProfiles task now bids ≠ [] := by
    intro h
    have hlen := congrArg List.length h
    simp only [scoreBids, List.length_mergeSort, List.length_map,
      List.length_nil] at hlen
    exact hne (List.length_eq_zero.mp hlen)
  have hsel := selectOptimalAgents_ne_nil
    (scoreBids st.agentProfiles task now bids)
    (effectiveOr task.minAgents 1) (effectiveOr task.maxAgents 5) hscored
    (effectiveOr_pos _ _ (by norm_num)) (effectiveOr_pos _ _ (by norm_num))
  have hbne : bids.isEmpty = false := by
    cases bids with
    | nil => exact absurd rfl hne
    | cons x xs => rfl
  have hselne : (selectOptimalAgents
      (scoreBids st.agentProfiles task now bids)
      (effectiveOr task.minAgents 1)
      (effectiveOr task.maxAgents 5)).isEmpty = false := by
    cases hsome : selectOptimalAgents
        (scoreBids st.agentProfiles task now bids)
        (effectiveOr task.minAgents 1) (effectiveOr task.maxAgents 5) with
    | nil => exact absurd hsome hsel
    | cons x xs => rfl
  refine ⟨{ taskId := taskId
            assignedAgents := (selectOptimalAgents
              (scoreBids st.agentProfiles task now bids)
              (effectiveOr task.minAgents 1)
              (effectiveOr task.maxAgents 5)).map fun sb => sb.bid.agentId
            totalReward := task.bounty
            deadline := task.deadline }, ?_, ?_⟩
  · simp [evaluateBidsAndAssign, htask, hbids, hbne, hselne]
  · simpa using hsel

/-- Witness for C10: evaluating the announced task with one valid bid
yields a `taskAssigned` event with a non-empty assignee list. -/
theorem C10_assignment_always_created_witness :
    ∃ assignment : TaskAssignment,
      (evaluateBidsAndAssign demoBidState 0 "t1").2 =
        [SwarmEvent.taskAssigned assignment] ∧
      assignment.assignedAgents ≠ [] :=
  C10_assignment_always_created demoBidState 0 "t1" demoTask [demoBid]
    (by
      simp [demoBidState, submitBid, demoAnnouncedState, announceTask,
        emptyDistributorState, demoBid, demoTask, validateCapabilities])
    (by
      simp [demoBidState, submitBid, demoAnnouncedState, announceTask,
        emptyDistributorState, demoBid, demoTask, validateCapabilities])
    (by simp)

end Swarm
